import Mathlib

/-!
Verification development for the multi-device playback backend
(device registry, active-device arbitration, real-time fan-out).

The embedding mirrors the Python source:
- services/sync.py        : SyncService (rooms, connect, disconnect,
                            broadcast_to_user, handle_playback_update,
                            broadcast_device_switch)
- services/firebase_db.py : FirebaseDB.set_playback_state
- main.py                 : set_active_device HTTP endpoint, websocket_endpoint

The device registry (services/device_manager.py) is imported by the source
but its file is not part of the source tree; its operations are modelled
from the specification (see the doc comments marked accordingly).

Connections (WebSocket objects) are modelled as natural-number identities;
Python dicts carrying JSON values are modelled as association lists; the
Firebase server-timestamp sentinel is an explicit constructor.  Side effects
(store writes, per-connection sends, caught send failures, arbitration
checks) are modelled as an explicit effect trace, and a per-connection
failure oracle stands for the transport errors the source catches.
-/

/-- A live WebSocket connection, identified by an opaque id. -/
abbrev Conn := Nat

/-- A JSON value as far as the modelled code inspects it: an opaque string,
or the Firebase server-timestamp sentinel written by set_playback_state. -/
inductive JVal where
  | s (v : String)
  | sentinelTimestamp
deriving DecidableEq, Repr

/-- A Python dict of JSON values, as an association list (insertion order). -/
abbrev Dict := List (String × JVal)

/-- Python dict assignment d[k] = v : replaces the value at the first
occurrence of k, otherwise appends the binding. -/
def dictSet (d : Dict) (k : String) (v : JVal) : Dict :=
  match d with
  | [] => [(k, v)]
  | (k0, v0) :: rest =>
      if k0 = k then (k0, v) :: rest else (k0, v0) :: dictSet rest k v

/-- Messages sent over a connection, as built by the source. -/
inductive Message where
  | playbackControlledElsewhere (activeDeviceId : Option String)
  | playbackStateUpdate (state : Dict)
  | deviceSwitched (newDeviceId : String)
  | raw (payload : Dict)
deriving DecidableEq, Repr

/-- One observable side effect of the modelled control path. -/
inductive Effect where
  | validateCall (userId deviceId : String)
  | storeWrite (path : String) (value : Dict)
  | send (c : Conn) (m : Message)
  | sendFailed (c : Conn)
deriving DecidableEq, Repr

/-- SyncService.rooms : dict user_id -> list of websockets
(association list with dict key-uniqueness maintained by the
operations below). -/
abbrev Rooms := List (String × List Conn)

/-- Python `rooms.get(u)` / `u in rooms` : first-match association lookup. -/
def lookupRoom (rooms : Rooms) (u : String) : Option (List Conn) :=
  match rooms with
  | [] => none
  | (k, l) :: rest => if k = u then some l else lookupRoom rest u

/-- Python dict assignment rooms[u] = l. -/
def setRoom (rooms : Rooms) (u : String) (l : List Conn) : Rooms :=
  match rooms with
  | [] => [(u, l)]
  | (k, l0) :: rest =>
      if k = u then (k, l) :: rest else (k, l0) :: setRoom rest u l

/-- Python `del rooms[u]` (no-op when the key is absent; the source only
deletes keys it has just looked up). -/
def delRoom (rooms : Rooms) (u : String) : Rooms :=
  match rooms with
  | [] => []
  | (k, l0) :: rest => if k = u then rest else (k, l0) :: delRoom rest u

/-- The connection list of the user, empty when the user has no room entry. -/
def roomList (rooms : Rooms) (u : String) : List Conn :=
  (lookupRoom rooms u).getD []

/-- SyncService.connect (sync.py lines 10-17): ensure the room entry for the
user exists, then append the websocket to that list. -/
def connect (rooms : Rooms) (ws : Conn) (u : String) : Rooms :=
  match lookupRoom rooms u with
  | none => setRoom rooms u [ws]
  | some l => setRoom rooms u (l ++ [ws])

/-- SyncService.disconnect (sync.py lines 19-25): if the user has an entry,
remove the websocket when present (first occurrence, as Python list.remove),
then delete the room entry of the user when the list became empty. -/
def disconnect (rooms : Rooms) (ws : Conn) (u : String) : Rooms :=
  match lookupRoom rooms u with
  | none => rooms
  | some l =>
      let l2 := l.erase ws
      if l2 = [] then delRoom rooms u else setRoom rooms u l2

/-- Loop body of SyncService.broadcast_to_user over a fixed connection list
(sync.py lines 29-37): skip the sender when one was given, try to send,
record a caught failure otherwise, never abort the loop.  `fails c = true`
means send_json to connection c raises. -/
def broadcastOver (room : List Conn) (m : Message) (sender : Option Conn)
    (fails : Conn → Bool) : List Effect :=
  room.foldl
    (fun acc c =>
      if sender = some c then acc
      else acc ++ [if fails c then Effect.sendFailed c else Effect.send c m])
    []

/-- SyncService.broadcast_to_user (sync.py lines 27-37): no effects when the
user has no room entry. -/
def broadcast_to_user (rooms : Rooms) (u : String) (m : Message)
    (sender : Option Conn) (fails : Conn → Bool) : List Effect :=
  match lookupRoom rooms u with
  | none => []
  | some room => broadcastOver room m sender fails

/-- Modelled from the spec: the per-user device registry state kept by the
missing services/device_manager.py — spec section 3 UserDeviceState:
a mapping of registered device ids and an optional active device pointer. -/
structure UserDevices where
  devices : List String
  activeDeviceId : Option String
deriving DecidableEq, Repr

/-- Modelled from the spec: the registry of UserDeviceState per user
(services/device_manager.py is absent from the source tree). -/
abbrev Registry := List (String × UserDevices)

/-- First-match association lookup in the registry. -/
def lookupReg (reg : Registry) (u : String) : Option UserDevices :=
  match reg with
  | [] => none
  | (k, d) :: rest => if k = u then some d else lookupReg rest u

/-- Replace-or-append update of the registry entry of a user. -/
def setReg (reg : Registry) (u : String) (d : UserDevices) : Registry :=
  match reg with
  | [] => [(u, d)]
  | (k, d0) :: rest =>
      if k = u then (k, d) :: rest else (k, d0) :: setReg rest u d

/-- Modelled from the spec: device_manager.register_device — spec section 4.1
register is an idempotent upsert that does not change active_device_id
(device metadata is not consumed by any claim and is omitted). -/
def register_device (reg : Registry) (u d : String) : Registry :=
  match lookupReg reg u with
  | none => setReg reg u { devices := [d], activeDeviceId := none }
  | some ud =>
      if d ∈ ud.devices then reg
      else setReg reg u { ud with devices := ud.devices ++ [d] }

/-- Modelled from the spec: device_manager.get_active_device — spec
section 4.1 getActive: none if never set or never registered. -/
def get_active_device (reg : Registry) (u : String) : Option String :=
  match lookupReg reg u with
  | none => none
  | some ud => ud.activeDeviceId

/-- Modelled from the spec: device_manager.set_active_device — spec
section 4.1 setActive succeeds only if the device id is present in the
devices of the user; on success it overwrites active_device_id and returns
true, otherwise it changes nothing and returns false. -/
def set_active_device (reg : Registry) (u d : String) : Registry × Bool :=
  match lookupReg reg u with
  | none => (reg, false)
  | some ud =>
      if d ∈ ud.devices then
        (setReg reg u { ud with activeDeviceId := some d }, true)
      else (reg, false)

/-- Modelled from the spec: device_manager.validate_device_control — spec
section 4.1 validateControl: true iff the device id equals the
active_device_id of the user. -/
def validate_device_control (reg : Registry) (u d : String) : Bool :=
  get_active_device reg u = some d

/-- The persisted playback path used by FirebaseDB.set_playback_state. -/
def playbackPath (u : String) : String :=
  "users/" ++ u ++ "/playback/current"

/-- FirebaseDB.set_playback_state (firebase_db.py lines 174-179): no write
for a falsy user id; otherwise stamp updatedAt with the server-timestamp
sentinel, in place, and set the playback path.  Returns the effect trace
and the (mutated) dict, since the caller aliases it. -/
def set_playback_state (u : String) (state : Dict) : List Effect × Dict :=
  if u = "" then ([], state)
  else
    let stamped := dictSet state "updatedAt" JVal.sentinelTimestamp
    ([Effect.storeWrite (playbackPath u) stamped], stamped)

/-- SyncService.handle_playback_update (sync.py lines 39-68): run the
arbitration check; on rejection send a playback_controlled_elsewhere
message to the sender when one was given (failure caught) and return
false; on acceptance write the stamped state to the store, broadcast
playback_state_update to the other connections of the user, return true. -/
def handle_playback_update (reg : Registry) (rooms : Rooms) (u d : String)
    (state : Dict) (sender : Option Conn) (fails : Conn → Bool) :
    List Effect × Bool :=
  let check := [Effect.validateCall u d]
  if ¬ validate_device_control reg u d then
    let active := get_active_device reg u
    match sender with
    | none => (check, false)
    | some s =>
        if fails s then (check ++ [Effect.sendFailed s], false)
        else
          (check ++ [Effect.send s (Message.playbackControlledElsewhere active)],
           false)
  else
    let (writeEffs, stamped) := set_playback_state u state
    (check ++ writeEffs ++
      broadcast_to_user rooms u (Message.playbackStateUpdate stamped) sender fails,
     true)

/-- SyncService.broadcast_device_switch (sync.py lines 70-78): broadcast a
device_switched message with no sender exclusion. -/
def broadcast_device_switch (rooms : Rooms) (u newActive : String)
    (fails : Conn → Bool) : List Effect :=
  broadcast_to_user rooms u (Message.deviceSwitched newActive) none fails

/-- The HTTP result of the /devices/set-active route. -/
inductive HttpResult where
  | ok (deviceId : String)
  | notFound404
deriving DecidableEq, Repr

/-- main.py set_active_device endpoint (lines 88-96): delegate to the
registry; on success broadcast device_switched to every connection of the user and return 200, otherwise return 404 with no broadcast. -/
def set_active_device_endpoint (reg : Registry) (rooms : Rooms) (u d : String)
    (fails : Conn → Bool) : Registry × List Effect × HttpResult :=
  let (reg2, success) := set_active_device reg u d
  if success then
    (reg2, broadcast_device_switch rooms u d fails, HttpResult.ok d)
  else (reg2, [], HttpResult.notFound404)

/-- main.py websocket_endpoint message-loop body (lines 263-265): every
received JSON payload is relayed to the other connections of the user via
broadcast_to_user with the receiving socket as sender; no other call is
made. -/
def websocket_on_message (rooms : Rooms) (u : String) (ws : Conn)
    (payload : Dict) (fails : Conn → Bool) : List Effect :=
  broadcast_to_user rooms u (Message.raw payload) (some ws) fails

/-- A concurrent room mutation that can land between two iterations of the
broadcast loop: another task removing a connection (SyncService.disconnect
on the same list object).  sync.py line 30 iterates self.rooms[user_id]
itself, so such a removal acts on the very list being iterated. -/
inductive Mut where
  | leave (c : Conn)
deriving DecidableEq, Repr

/-- Apply one concurrent mutation to the live list (list.remove removes the
first occurrence). -/
def applyMut (l : List Conn) : Mut → List Conn
  | Mut.leave c => l.erase c

/-- Apply a batch of concurrent mutations. -/
def applyMuts (l : List Conn) (ms : List Mut) : List Conn :=
  ms.foldl applyMut l

/-- CPython for-statement semantics over the live list: an internal index
starts at 0; each step visits the element at the index of the CURRENT list
if the index is in range, then the scheduled concurrent mutations land and
the index advances.  `sched n` gives the mutations landing after the n-th
visit.  Fuel bounds the recursion; mutations only shrink the list, so fuel
equal to the starting length is enough. -/
def iterLive (fuel : Nat) (l : List Conn) (i : Nat) (sched : Nat → List Mut)
    (step : Nat) : List Conn :=
  match fuel with
  | 0 => []
  | f + 1 =>
      if h : i < l.length then
        l.get ⟨i, h⟩ :: iterLive f (applyMuts l (sched step)) (i + 1) sched (step + 1)
      else []

/-- The connections the broadcast loop of sync.py lines 30-37 visits when
the scheduled concurrent removals interleave with it (the loop has no
snapshot of the list). -/
def broadcastVisits (room : List Conn) (sched : Nat → List Mut) : List Conn :=
  iterLive room.length room 0 sched 0

/-- Does this effect attempt a delivery (successful or failed) to c ? -/
def attemptsTo (e : Effect) (c : Conn) : Bool :=
  match e with
  | Effect.send c2 _ => c2 = c
  | Effect.sendFailed c2 => c2 = c
  | _ => false

/-- Every room entry is non-empty (rooms never keep a user key with an
empty connection list). -/
def roomsWF (rooms : Rooms) : Prop :=
  ∀ p ∈ rooms, p.2 ≠ []

/-- Modelled from the spec: device_manager.get_user_devices — spec
section 4.1 listDevices: the registered device ids of a user, empty for an
unknown user. -/
def get_user_devices (reg : Registry) (u : String) : List String :=
  match lookupReg reg u with
  | none => []
  | some ud => ud.devices

/-- A mutation schedule with one concurrent disconnect: while the broadcast
loop is sending to connection 1, connection 1 is removed from the live list
(the sync.py disconnect path running for the same user). -/
def c5sched : Nat → List Mut :=
  fun n => if n = 0 then [Mut.leave 1] else []

/-- A playback-mutating client message, as websocket_endpoint receives it:
it proposes a playback mutation and asserts a device identity. -/
def relayedPayload : Dict :=
  [("type", JVal.s "playback_state_update"), ("device_id", JVal.s "d2"),
   ("track_id", JVal.s "t1"), ("position_sec", JVal.s "42"),
   ("is_playing", JVal.s "true")]

/-- A concrete registry: user u1 has devices d1 and d2, with d1 active. -/
def regW : Registry :=
  [("u1", { devices := ["d1", "d2"], activeDeviceId := some "d1" })]

/-- A concrete room map: user u1 has three live connections. -/
def roomsW : Rooms := [("u1", [1, 2, 3])]

/-- The rooms obtained by joining the SAME connection twice for one user. -/
def c9rooms : Rooms := connect (connect [] 1 "u1") 1 "u1"

-- Helper lemmas ------------------------------------------------------------

lemma broadcastOver_go (room : List Conn) (m : Message) (sender : Option Conn)
    (fails : Conn → Bool) (init : List Effect) :
    room.foldl
      (fun acc c =>
        if sender = some c then acc
        else acc ++ [if fails c then Effect.sendFailed c else Effect.send c m])
      init
    = init ++ broadcastOver room m sender fails := by
  induction room generalizing init with
  | nil => simp [broadcastOver]
  | cons c rest ih =>
      simp only [broadcastOver, List.foldl_cons]
      by_cases hc : sender = some c
      · simp only [if_pos hc]
        rw [ih init, ih []]
        simp
      · simp only [if_neg hc]
        rw [ih (init ++ [if fails c then Effect.sendFailed c else Effect.send c m]),
            ih ([] ++ [if fails c then Effect.sendFailed c else Effect.send c m])]
        simp

lemma broadcastOver_cons (c : Conn) (room : List Conn) (m : Message)
    (sender : Option Conn) (fails : Conn → Bool) :
    broadcastOver (c :: room) m sender fails
    = (if sender = some c then []
       else [if fails c then Effect.sendFailed c else Effect.send c m])
      ++ broadcastOver room m sender fails := by
  by_cases hc : sender = some c
  · simp only [broadcastOver, List.foldl_cons, if_pos hc]
    rw [broadcastOver_go]
    simp [broadcastOver]
  · simp only [broadcastOver, List.foldl_cons, if_neg hc]
    rw [broadcastOver_go]
    simp [broadcastOver]

lemma broadcastOver_none_nofail (room : List Conn) (m : Message) :
    broadcastOver room m none (fun _ => false)
    = room.map (fun c => Effect.send c m) := by
  induction room with
  | nil => simp [broadcastOver]
  | cons c rest ih =>
      rw [broadcastOver_cons]
      simp [ih]

lemma broadcastOver_some_nofail (room : List Conn) (m : Message) (s : Conn) :
    broadcastOver room m (some s) (fun _ => false)
    = (room.filter (fun c => c ≠ s)).map (fun c => Effect.send c m) := by
  induction room with
  | nil => simp [broadcastOver]
  | cons c rest ih =>
      rw [broadcastOver_cons]
      by_cases hc : c = s
      · subst hc
        simp [ih]
      · have hcs : ¬ (some s = some c) := by
          intro h
          exact hc (Option.some.inj h).symm
        rw [if_neg hcs, ih]
        simp [List.filter_cons, hc]

lemma mem_broadcastOver_send (room : List Conn) (m : Message)
    (sender : Option Conn) (fails : Conn → Bool) (c : Conn)
    (hmem : c ∈ room) (hs : sender ≠ some c) (hf : fails c = false) :
    Effect.send c m ∈ broadcastOver room m sender fails := by
  induction room with
  | nil => cases hmem
  | cons c0 rest ih =>
      rw [broadcastOver_cons]
      rcases List.mem_cons.mp hmem with hc | hc
      · subst hc
        rw [if_neg hs, hf]
        simp
      · rcases List.mem_append.mpr (Or.inr (ih hc)) with h
        exact List.mem_append.mpr (Or.inr (ih hc))

lemma mem_broadcastOver_attempts (room : List Conn) (m : Message)
    (sender : Option Conn) (fails : Conn → Bool) (e : Effect)
    (he : e ∈ broadcastOver room m sender fails) :
    ∃ c ∈ room, e = Effect.send c m ∨ e = Effect.sendFailed c := by
  induction room with
  | nil => simp [broadcastOver] at he
  | cons c0 rest ih =>
      rw [broadcastOver_cons] at he
      rcases List.mem_append.mp he with h | h
      · by_cases hc : sender = some c0
        · simp [if_pos hc] at h
        · simp only [if_neg hc, List.mem_singleton] at h
          refine ⟨c0, List.mem_cons_self _ _, ?_⟩
          by_cases hf : fails c0
          · right
            simp [hf] at h
            exact h
          · left
            simp [hf] at h
            exact h
      · obtain ⟨c, hcmem, hor⟩ := ih h
        exact ⟨c, List.mem_cons_of_mem _ hcmem, hor⟩

lemma iterLive_empty_sched (fuel : Nat) :
    ∀ (l : List Conn) (i step : Nat), l.length - i ≤ fuel →
      iterLive fuel l i (fun _ => []) step = l.drop i := by
  induction fuel with
  | zero =>
      intro l i step h
      have hle : l.length ≤ i := Nat.le_of_sub_eq_zero (Nat.le_zero.mp h)
      simp [iterLive, List.drop_eq_nil_of_le hle]
  | succ f ih =>
      intro l i step h
      by_cases hi : i < l.length
      · have hstep : l.length - (i + 1) ≤ f := by omega
        have := ih l (i + 1) (step + 1) hstep
        simp only [iterLive, dif_pos hi, applyMuts, List.foldl_nil, this]
        rw [List.drop_eq_getElem_cons hi]
        simp
      · have hle : l.length ≤ i := Nat.le_of_not_lt hi
        simp [iterLive, dif_neg hi, List.drop_eq_nil_of_le hle]

lemma count_send_map (room : List Conn) (ws : Conn) (m : Message) :
    List.count (Effect.send ws m) (room.map (fun c => Effect.send c m))
    = List.count ws room := by
  induction room with
  | nil => simp
  | cons c rest ih =>
      simp only [List.map_cons, List.count_cons, ih]
      by_cases hc : c = ws
      · simp [hc]
      · simp [hc, Effect.send.injEq]

lemma lookup_setRoom_self (rooms : Rooms) (u : String) (l : List Conn) :
    lookupRoom (setRoom rooms u l) u = some l := by
  induction rooms with
  | nil => simp [setRoom, lookupRoom]
  | cons p rest ih =>
      obtain ⟨k, l0⟩ := p
      by_cases hk : k = u
      · simp [setRoom, lookupRoom, hk]
      · simp [setRoom, lookupRoom, hk, ih]

lemma lookupRoom_eq_none_of_not_mem (rooms : Rooms) (u : String)
    (h : u ∉ rooms.map Prod.fst) : lookupRoom rooms u = none := by
  induction rooms with
  | nil => rfl
  | cons p rest ih =>
      obtain ⟨k, l0⟩ := p
      simp only [List.map_cons, List.mem_cons] at h
      push_neg at h
      simp only [lookupRoom]
      rw [if_neg (fun hk => h.1 hk.symm)]
      exact ih h.2

lemma lookup_delRoom_self (rooms : Rooms) (u : String)
    (h : (rooms.map Prod.fst).Nodup) : lookupRoom (delRoom rooms u) u = none := by
  induction rooms with
  | nil => rfl
  | cons p rest ih =>
      obtain ⟨k, l0⟩ := p
      simp only [List.map_cons, List.nodup_cons] at h
      by_cases hk : k = u
      · subst hk
        simp only [delRoom, if_pos rfl]
        exact lookupRoom_eq_none_of_not_mem rest k h.1
      · simp only [delRoom, if_neg hk, lookupRoom]
        exact ih h.2

lemma mem_setRoom (rooms : Rooms) (u : String) (l : List Conn) :
    ∀ p ∈ setRoom rooms u l, p ∈ rooms ∨ p = (u, l) := by
  induction rooms with
  | nil =>
      intro p hp
      simp [setRoom] at hp
      exact Or.inr hp
  | cons q rest ih =>
      obtain ⟨k, l0⟩ := q
      intro p hp
      by_cases hk : k = u
      · simp only [setRoom, if_pos hk, List.mem_cons] at hp
        rcases hp with hp | hp
        · subst hk
          exact Or.inr hp
        · exact Or.inl (List.mem_cons_of_mem _ hp)
      · simp only [setRoom, if_neg hk, List.mem_cons] at hp
        rcases hp with hp | hp
        · exact Or.inl (by simp [hp])
        · rcases ih p hp with h2 | h2
          · exact Or.inl (List.mem_cons_of_mem _ h2)
          · exact Or.inr h2

lemma mem_delRoom (rooms : Rooms) (u : String) :
    ∀ p ∈ delRoom rooms u, p ∈ rooms := by
  induction rooms with
  | nil => intro p hp; cases hp
  | cons q rest ih =>
      obtain ⟨k, l0⟩ := q
      intro p hp
      by_cases hk : k = u
      · simp only [delRoom, if_pos hk] at hp
        exact List.mem_cons_of_mem _ hp
      · simp only [delRoom, if_neg hk, List.mem_cons] at hp
        rcases hp with hp | hp
        · exact List.mem_cons.mpr (Or.inl hp)
        · exact List.mem_cons_of_mem _ (ih p hp)

lemma roomsWF_connect (rooms : Rooms) (ws : Conn) (u : String)
    (h : roomsWF rooms) : roomsWF (connect rooms ws u) := by
  intro p hp
  unfold connect at hp
  cases hl : lookupRoom rooms u with
  | none =>
      rw [hl] at hp
      rcases mem_setRoom rooms u [ws] p hp with h2 | h2
      · exact h p h2
      · rw [h2]; simp
  | some l =>
      rw [hl] at hp
      rcases mem_setRoom rooms u (l ++ [ws]) p hp with h2 | h2
      · exact h p h2
      · rw [h2]; simp

lemma broadcast_to_user_eq_over (rooms : Rooms) (u : String) (m : Message)
    (sender : Option Conn) (fails : Conn → Bool) (room : List Conn)
    (hl : lookupRoom rooms u = some room) :
    broadcast_to_user rooms u m sender fails = broadcastOver room m sender fails := by
  unfold broadcast_to_user
  rw [hl]

-- Claim theorems ------------------------------------------------------------

/-- Claim C2: when the sending device is not the active device of the user,
handle_playback_update performs zero store writes and zero room broadcasts,
sends exactly one playback_controlled_elsewhere rejection, delivered only to
the sender connection and carrying the current active device id, and
returns False.  Stated as the exact effect trace of the call. -/
theorem handle_playback_update_rejected_sender (reg : Registry) (rooms : Rooms)
    (u d : String) (state : Dict) (s : Conn) (fails : Conn → Bool)
    (hval : validate_device_control reg u d = false)
    (hfail : fails s = false) :
    handle_playback_update reg rooms u d state (some s) fails
    = ([Effect.validateCall u d,
        Effect.send s (Message.playbackControlledElsewhere (get_active_device reg u))],
       false) := by
  simp [handle_playback_update, hval, hfail]

/-- Witness for C2: in a registry where d1 is active for u1, an update from
d2 yields exactly one rejection to the sender (connection 5) carrying d1,
and nothing else. -/
theorem handle_playback_update_rejected_sender_witness :
    validate_device_control regW "u1" "d2" = false
    ∧ handle_playback_update regW roomsW "u1" "d2" [("track_id", JVal.s "t1")]
        (some 5) (fun _ => false)
      = ([Effect.validateCall "u1" "d2",
          Effect.send 5 (Message.playbackControlledElsewhere (some "d1"))],
         false) :=
  ⟨by decide,
   (handle_playback_update_rejected_sender regW roomsW "u1" "d2"
      [("track_id", JVal.s "t1")] 5 (fun _ => false) (by decide) rfl).trans
     (by decide)⟩

/-- Claim C10: when arbitration rejects the update and no sender connection
was supplied, handle_playback_update returns False and sends no message to
any connection: the rejection reply exists only when a sender is given. -/
theorem handle_playback_update_rejected_no_sender (reg : Registry)
    (rooms : Rooms) (u d : String) (state : Dict) (fails : Conn → Bool)
    (hval : validate_device_control reg u d = false) :
    handle_playback_update reg rooms u d state none fails
    = ([Effect.validateCall u d], false) := by
  simp [handle_playback_update, hval]

/-- Witness for C10: a rejected update with sender None produces no send at
all and returns False. -/
theorem handle_playback_update_rejected_no_sender_witness :
    validate_device_control regW "u1" "d2" = false
    ∧ handle_playback_update regW roomsW "u1" "d2" [("track_id", JVal.s "t1")]
        none (fun _ => true)
      = ([Effect.validateCall "u1" "d2"], false) :=
  ⟨by decide,
   handle_playback_update_rejected_no_sender regW roomsW "u1" "d2"
     [("track_id", JVal.s "t1")] (fun _ => true) (by decide)⟩

/-- Claim C3: when the sending device is the active device of the user,
handle_playback_update performs exactly one write of the proposed state,
stamped with the server updatedAt timestamp sentinel, to the persistent
playback path, and one playback_state_update broadcast reaching every
other live connection of the user and never the sender, and returns True.
Stated as the exact effect trace plus the reach-all and not-sender facts.
The user id is assumed non-empty (an empty id denotes no user; the store
layer drops writes for it). -/
theorem handle_playback_update_accepted (reg : Registry) (rooms : Rooms)
    (u d : String) (state : Dict) (s : Conn)
    (hval : validate_device_control reg u d = true)
    (hu : u ≠ "") :
    handle_playback_update reg rooms u d state (some s) (fun _ => false)
    = ([Effect.validateCall u d,
        Effect.storeWrite (playbackPath u)
          (dictSet state "updatedAt" JVal.sentinelTimestamp)]
       ++ ((roomList rooms u).filter (fun c => c ≠ s)).map
            (fun c => Effect.send c (Message.playbackStateUpdate
              (dictSet state "updatedAt" JVal.sentinelTimestamp))),
       true)
    ∧ (∀ c ∈ roomList rooms u, c ≠ s →
        Effect.send c (Message.playbackStateUpdate
            (dictSet state "updatedAt" JVal.sentinelTimestamp))
          ∈ (handle_playback_update reg rooms u d state (some s) (fun _ => false)).1)
    ∧ (∀ m2 : Message,
        Effect.send s m2
          ∉ (handle_playback_update reg rooms u d state (some s) (fun _ => false)).1) := by
  have hb : broadcast_to_user rooms u
      (Message.playbackStateUpdate (dictSet state "updatedAt" JVal.sentinelTimestamp))
      (some s) (fun _ => false)
      = ((roomList rooms u).filter (fun c => c ≠ s)).map
          (fun c => Effect.send c (Message.playbackStateUpdate
            (dictSet state "updatedAt" JVal.sentinelTimestamp))) := by
    unfold broadcast_to_user roomList
    cases hl : lookupRoom rooms u with
    | none => simp
    | some room => simp [broadcastOver_some_nofail]
  have heq : handle_playback_update reg rooms u d state (some s) (fun _ => false)
      = ([Effect.validateCall u d,
          Effect.storeWrite (playbackPath u)
            (dictSet state "updatedAt" JVal.sentinelTimestamp)]
         ++ ((roomList rooms u).filter (fun c => c ≠ s)).map
              (fun c => Effect.send c (Message.playbackStateUpdate
                (dictSet state "updatedAt" JVal.sentinelTimestamp))),
         true) := by
    simp [handle_playback_update, hval, set_playback_state, hu, hb]
  refine ⟨heq, ?_, ?_⟩
  · intro c hc hcs
    rw [heq]
    simp only [List.mem_append, List.mem_map, List.mem_filter]
    right
    exact ⟨c, ⟨hc, by simpa using hcs⟩, rfl⟩
  · intro m2
    rw [heq]
    simp only [List.mem_append, List.mem_map, List.mem_filter, List.mem_cons,
      List.mem_singleton]
    rintro (h | ⟨c, ⟨hc, hcs⟩, hsend⟩)
    · rcases h with h | h
      · cases h
      · rcases h with h | h
        · cases h
        · cases h
    · have : c = s := (Effect.send.injEq _ _ _ _).mp hsend |>.1
      rw [this] at hcs
      simp at hcs

/-- Witness for C3: with d1 active for u1 and room connections 1, 2, 3, an
update sent by d1 over connection 1 writes the stamped state once and
broadcasts it exactly to connections 2 and 3. -/
theorem handle_playback_update_accepted_witness :
    validate_device_control regW "u1" "d1" = true
    ∧ "u1" ≠ ""
    ∧ handle_playback_update regW roomsW "u1" "d1" [("track_id", JVal.s "t1")]
        (some 1) (fun _ => false)
      = ([Effect.validateCall "u1" "d1",
          Effect.storeWrite "users/u1/playback/current"
            [("track_id", JVal.s "t1"), ("updatedAt", JVal.sentinelTimestamp)]]
         ++ [Effect.send 2 (Message.playbackStateUpdate
               [("track_id", JVal.s "t1"), ("updatedAt", JVal.sentinelTimestamp)]),
             Effect.send 3 (Message.playbackStateUpdate
               [("track_id", JVal.s "t1"), ("updatedAt", JVal.sentinelTimestamp)])],
         true) :=
  ⟨by decide, by decide,
   ((handle_playback_update_accepted regW roomsW "u1" "d1"
       [("track_id", JVal.s "t1")] 1 (by decide) (by decide)).1).trans (by decide)⟩

/-- Claim C4: when set_active_device succeeds for a registered device, the
set-active endpoint broadcasts one device_switched event carrying the new
device id to ALL live connections of the user — the full room list with no
sender exclusion, so the switching and the demoted connections are
included — and returns the success result. -/
theorem set_active_device_endpoint_broadcasts_all (reg : Registry)
    (rooms : Rooms) (u d : String)
    (hsucc : (set_active_device reg u d).2 = true) :
    set_active_device_endpoint reg rooms u d (fun _ => false)
    = ((set_active_device reg u d).1,
       (roomList rooms u).map (fun c => Effect.send c (Message.deviceSwitched d)),
       HttpResult.ok d)
    ∧ ∀ c ∈ roomList rooms u,
        Effect.send c (Message.deviceSwitched d)
          ∈ (set_active_device_endpoint reg rooms u d (fun _ => false)).2.1 := by
  have hb : broadcast_device_switch rooms u d (fun _ => false)
      = (roomList rooms u).map (fun c => Effect.send c (Message.deviceSwitched d)) := by
    unfold broadcast_device_switch broadcast_to_user roomList
    cases hl : lookupRoom rooms u with
    | none => simp
    | some room => simp [broadcastOver_none_nofail]
  have heq : set_active_device_endpoint reg rooms u d (fun _ => false)
      = ((set_active_device reg u d).1,
         (roomList rooms u).map (fun c => Effect.send c (Message.deviceSwitched d)),
         HttpResult.ok d) := by
    simp [set_active_device_endpoint, hsucc, hb]
  refine ⟨heq, ?_⟩
  intro c hc
  rw [heq]
  exact List.mem_map.mpr ⟨c, hc, rfl⟩

/-- Witness for C4: switching u1 to the registered device d2 broadcasts
device_switched d2 to all three live connections, including connection 1. -/
theorem set_active_device_endpoint_broadcasts_all_witness :
    (set_active_device regW "u1" "d2").2 = true
    ∧ set_active_device_endpoint regW roomsW "u1" "d2" (fun _ => false)
      = ([("u1", { devices := ["d1", "d2"], activeDeviceId := some "d2" })],
         [Effect.send 1 (Message.deviceSwitched "d2"),
          Effect.send 2 (Message.deviceSwitched "d2"),
          Effect.send 3 (Message.deviceSwitched "d2")],
         HttpResult.ok "d2") :=
  ⟨by decide,
   ((set_active_device_endpoint_broadcasts_all regW roomsW "u1" "d2"
       (by decide)).1).trans (by decide)⟩

/-- Claim C6: setting an unregistered device active fails: set_active_device
returns false and leaves the registry — in particular the active device
pointer — unchanged, and the HTTP endpoint answers 404 with no
device_switched broadcast. -/
theorem set_active_device_unregistered (reg : Registry) (rooms : Rooms)
    (u d : String) (fails : Conn → Bool)
    (h : d ∉ get_user_devices reg u) :
    set_active_device reg u d = (reg, false)
    ∧ get_active_device (set_active_device reg u d).1 u = get_active_device reg u
    ∧ set_active_device_endpoint reg rooms u d fails
      = (reg, [], HttpResult.notFound404) := by
  have h1 : set_active_device reg u d = (reg, false) := by
    unfold set_active_device
    cases hl : lookupReg reg u with
    | none => rfl
    | some ud =>
        have hnd : d ∉ ud.devices := by
          unfold get_user_devices at h
          rw [hl] at h
          exact h
        simp [hnd]
  refine ⟨h1, by rw [h1], ?_⟩
  simp [set_active_device_endpoint, h1]

/-- Witness for C6: device d9 is not registered for u1, so the switch fails,
the active pointer stays d1, and the endpoint answers 404 without any
broadcast. -/
theorem set_active_device_unregistered_witness :
    "d9" ∉ get_user_devices regW "u1"
    ∧ set_active_device regW "u1" "d9" = (regW, false)
    ∧ get_active_device (set_active_device regW "u1" "d9").1 "u1" = some "d1"
    ∧ set_active_device_endpoint regW roomsW "u1" "d9" (fun _ => false)
      = (regW, [], HttpResult.notFound404) :=
  have hthm := set_active_device_unregistered regW roomsW "u1" "d9"
    (fun _ => false) (by decide)
  ⟨by decide, hthm.1, (congrArg (fun r => get_active_device r.1 "u1") hthm.1).trans
    (by decide), hthm.2.2⟩

/-- Claim C7: after disconnect the connection is no longer in the room of
the user (given its room keys are dict-unique and the connection is held at
most once, as the endpoint guarantees), so a subsequent broadcast attempts
no delivery to it; if it was the last connection the user has no room entry
at all; and the every-entry-non-empty invariant is preserved by disconnect
and by connect (broadcast does not mutate the rooms at all). -/
theorem disconnect_removes_and_preserves (rooms : Rooms) (ws : Conn)
    (u : String)
    (hkeys : (rooms.map Prod.fst).Nodup)
    (hcount : List.count ws (roomList rooms u) ≤ 1) :
    ws ∉ roomList (disconnect rooms ws u) u
    ∧ (∀ m sender fails e,
        e ∈ broadcast_to_user (disconnect rooms ws u) u m sender fails →
        attemptsTo e ws = false)
    ∧ (roomList rooms u = [ws] → lookupRoom (disconnect rooms ws u) u = none)
    ∧ (roomsWF rooms → roomsWF (disconnect rooms ws u))
    ∧ (∀ rooms2 ws2 u2, roomsWF rooms2 → roomsWF (connect rooms2 ws2 u2)) := by
  cases hl : lookupRoom rooms u with
  | none =>
      have hd : disconnect rooms ws u = rooms := by simp [disconnect, hl]
      have hrl : roomList rooms u = [] := by simp [roomList, hl]
      refine ⟨?_, ?_, ?_, ?_, ?_⟩
      · rw [hd, hrl]
        simp
      · intro m sender fails e he
        rw [hd] at he
        unfold broadcast_to_user at he
        rw [hl] at he
        cases he
      · intro habs
        rw [hrl] at habs
        cases habs
      · intro hwf
        rwa [hd]
      · exact fun rooms2 ws2 u2 => roomsWF_connect rooms2 ws2 u2
  | some l =>
      have hrl : roomList rooms u = l := by simp [roomList, hl]
      rw [hrl] at hcount
      have hnotmem : ws ∉ l.erase ws := by
        have hce := List.count_erase_self ws l
        have : List.count ws (l.erase ws) = 0 := by omega
        exact List.count_eq_zero.mp this
      by_cases hemp : l.erase ws = []
      · have hd : disconnect rooms ws u = delRoom rooms u := by
          simp [disconnect, hl, hemp]
        have hdel : lookupRoom (delRoom rooms u) u = none :=
          lookup_delRoom_self rooms u hkeys
        refine ⟨?_, ?_, ?_, ?_, ?_⟩
        · rw [hd]
          simp [roomList, hdel]
        · intro m sender fails e he
          rw [hd] at he
          unfold broadcast_to_user at he
          rw [hdel] at he
          cases he
        · intro _
          rw [hd]
          exact hdel
        · intro hwf p hp
          rw [hd] at hp
          exact hwf p (mem_delRoom rooms u p hp)
        · exact fun rooms2 ws2 u2 => roomsWF_connect rooms2 ws2 u2
      · have hd : disconnect rooms ws u = setRoom rooms u (l.erase ws) := by
          simp [disconnect, hl, hemp]
        have hlu : lookupRoom (setRoom rooms u (l.erase ws)) u
            = some (l.erase ws) := lookup_setRoom_self rooms u (l.erase ws)
        refine ⟨?_, ?_, ?_, ?_, ?_⟩
        · rw [hd]
          simpa [roomList, hlu] using hnotmem
        · intro m sender fails e he
          rw [hd] at he
          unfold broadcast_to_user at he
          rw [hlu] at he
          obtain ⟨c, hcmem, hor⟩ := mem_broadcastOver_attempts _ m sender fails e he
          have hcws : c ≠ ws := fun hcw => hnotmem (hcw ▸ hcmem)
          rcases hor with rfl | rfl <;> simp [attemptsTo, hcws]
        · intro habs
          rw [hrl] at habs
          rw [habs] at hemp
          simp [List.erase_cons_head] at hemp
        · intro hwf p hp
          rw [hd] at hp
          rcases mem_setRoom rooms u (l.erase ws) p hp with h2 | h2
          · exact hwf p h2
          · rw [h2]
            exact hemp
        · exact fun rooms2 ws2 u2 => roomsWF_connect rooms2 ws2 u2

/-- Witness for C7: disconnecting the single connection 7 of user u1 leaves
no room entry for u1 and a broadcast afterwards attempts nothing. -/
theorem disconnect_removes_and_preserves_witness :
    (([("u1", [7])] : Rooms).map Prod.fst).Nodup
    ∧ List.count 7 (roomList [("u1", [7])] "u1") ≤ 1
    ∧ (7 ∉ roomList (disconnect [("u1", [7])] 7 "u1") "u1"
       ∧ (∀ m sender fails e,
           e ∈ broadcast_to_user (disconnect [("u1", [7])] 7 "u1") "u1" m sender fails →
           attemptsTo e 7 = false)
       ∧ (roomList [("u1", [7])] "u1" = [7] →
           lookupRoom (disconnect [("u1", [7])] 7 "u1") "u1" = none)
       ∧ (roomsWF [("u1", [7])] → roomsWF (disconnect [("u1", [7])] 7 "u1"))
       ∧ (∀ rooms2 ws2 u2, roomsWF rooms2 → roomsWF (connect rooms2 ws2 u2))) :=
  ⟨by decide, by decide,
   disconnect_removes_and_preserves [("u1", [7])] 7 "u1" (by decide) (by decide)⟩

/-- Claim C8: a failing send to one connection is caught and isolated: every
other live, non-failing, non-sender connection still receives the broadcast
message, and the rejection path of handle_playback_update records the caught
failure in its trace and still returns normally with False (no exception
reaches the caller: the modelled functions are total and the failure shows
up only as a sendFailed trace entry). -/
theorem send_failures_isolated :
    (∀ (rooms : Rooms) (u : String) (m : Message) (sender : Option Conn)
        (fails : Conn → Bool) (c : Conn),
        c ∈ roomList rooms u → sender ≠ some c → fails c = false →
        Effect.send c m ∈ broadcast_to_user rooms u m sender fails)
    ∧ (∀ (reg : Registry) (rooms : Rooms) (u d : String) (state : Dict)
        (s : Conn) (fails : Conn → Bool),
        validate_device_control reg u d = false → fails s = true →
        handle_playback_update reg rooms u d state (some s) fails
        = ([Effect.validateCall u d, Effect.sendFailed s], false)) := by
  constructor
  · intro rooms u m sender fails c hc hs hf
    unfold broadcast_to_user
    cases hl : lookupRoom rooms u with
    | none =>
        unfold roomList at hc
        rw [hl] at hc
        cases hc
    | some room =>
        have hcr : c ∈ room := by
          unfold roomList at hc
          rwa [hl] at hc
        exact mem_broadcastOver_send room m sender fails c hcr hs hf
  · intro reg rooms u d state s fails hval hfail
    simp [handle_playback_update, hval, hfail]

/-- Witness for C8: with connection 1 failing, connection 2 still receives
the broadcast, and a rejected update whose sender connection 1 fails leaves
only the caught-failure trace entry and returns False. -/
theorem send_failures_isolated_witness :
    Effect.send 2 (Message.raw []) ∈
      broadcast_to_user roomsW "u1" (Message.raw []) none (fun c => c == 1)
    ∧ handle_playback_update regW roomsW "u1" "d2" [] (some 1) (fun c => c == 1)
      = ([Effect.validateCall "u1" "d2", Effect.sendFailed 1], false) :=
  ⟨send_failures_isolated.1 roomsW "u1" (Message.raw []) none (fun c => c == 1) 2
     (by decide) (by decide) (by decide),
   send_failures_isolated.2 regW roomsW "u1" "d2" [] 1 (fun c => c == 1)
     (by decide) (by decide)⟩

/-- Claim C9 counterexample: joining the same connection twice is NOT
idempotent — the room list of u1 becomes [1, 1], and a broadcast then
delivers the same message to connection 1 twice — refuting set semantics
of the room. -/
theorem connect_not_idempotent_counterexample :
    roomList c9rooms "u1" = [1, 1]
    ∧ broadcast_to_user c9rooms "u1" (Message.raw []) none (fun _ => false)
      = [Effect.send 1 (Message.raw []), Effect.send 1 (Message.raw [])] := by
  constructor
  · decide
  · decide

/-- Claim C9 amended: the room has Python list semantics, not set semantics:
connect appends unconditionally, so a connection joined while already
present gains a second occurrence and broadcasts deliver once per
occurrence.  A connection that is NOT already in the room of the user
occurs exactly once after connect, and a subsequent broadcast (no sender
exclusion, no send failures) delivers to it exactly once. -/
theorem connect_fresh_once (rooms : Rooms) (ws : Conn) (u : String)
    (m : Message)
    (h : ws ∉ roomList rooms u) :
    List.count ws (roomList (connect rooms ws u) u) = 1
    ∧ List.count (Effect.send ws m)
        (broadcast_to_user (connect rooms ws u) u m none (fun _ => false)) = 1 := by
  cases hl : lookupRoom rooms u with
  | none =>
      have hc : connect rooms ws u = setRoom rooms u [ws] := by
        simp [connect, hl]
      have hlu := lookup_setRoom_self rooms u [ws]
      rw [hc]
      constructor
      · simp [roomList, hlu]
      · rw [broadcast_to_user_eq_over _ _ _ _ _ _ hlu,
            broadcastOver_none_nofail, count_send_map]
        simp
  | some l =>
      have hwsl : ws ∉ l := by
        unfold roomList at h
        rwa [hl] at h
      have hc : connect rooms ws u = setRoom rooms u (l ++ [ws]) := by
        simp [connect, hl]
      have hlu := lookup_setRoom_self rooms u (l ++ [ws])
      have hcnt : List.count ws (l ++ [ws]) = 1 := by
        rw [List.count_append]
        rw [List.count_eq_zero.mpr hwsl]
        simp
      rw [hc]
      constructor
      · simp [roomList, hlu, hcnt]
      · rw [broadcast_to_user_eq_over _ _ _ _ _ _ hlu,
            broadcastOver_none_nofail, count_send_map]
        exact hcnt

/-- Witness for the amended C9: joining connection 1 to an empty room map
puts it in the room of u1 exactly once, and a broadcast delivers to it
exactly once. -/
theorem connect_fresh_once_witness :
    (1 : Conn) ∉ roomList [] "u1"
    ∧ (List.count 1 (roomList (connect [] 1 "u1") "u1") = 1
       ∧ List.count (Effect.send 1 (Message.raw []))
           (broadcast_to_user (connect [] 1 "u1") "u1" (Message.raw []) none
             (fun _ => false)) = 1) :=
  ⟨by decide, connect_fresh_once [] 1 "u1" (Message.raw []) (by decide)⟩

/-- Claim C5 counterexample: the broadcast loop of sync.py iterates the
LIVE list self.rooms[user_id] with no snapshot; under CPython for-loop
index semantics, when connection 1 disconnects while it is being sent to,
connection 2 — in the room when the broadcast started — is skipped and
never visited. -/
theorem broadcast_no_snapshot_counterexample :
    (2 : Conn) ∈ ([1, 2, 3] : List Conn)
    ∧ broadcastVisits [1, 2, 3] c5sched = [1, 3]
    ∧ (2 : Conn) ∉ broadcastVisits [1, 2, 3] c5sched := by
  refine ⟨by decide, by decide, by decide⟩

/-- Claim C5 amended: broadcast_to_user iterates the live connection list
directly (no snapshot is taken): when NO connection leaves the room during
the broadcast, the loop visits exactly the connections present at the
start, in order, once each; but a concurrent removal can make it skip a
connection that was present when the broadcast started (see the
counterexample). -/
theorem broadcast_no_mutation_visits_all (room : List Conn) :
    broadcastVisits room (fun _ => []) = room := by
  unfold broadcastVisits
  have h := iterLive_empty_sched room.length room 0 0 (by omega)
  simpa using h

/-- Claim C1: the websocket endpoint relays a playback-mutating client
message to the other connections of the user WITHOUT any arbitration
check: at the failing input (user u1 with live connections 1 and 2,
connection 1 sending a playback_state_update mutation), the trace is a
single raw delivery to connection 2 and contains no validate_device_control
call at all. -/
theorem websocket_relay_unvalidated :
    websocket_on_message [("u1", [1, 2])] "u1" 1 relayedPayload (fun _ => false)
      = [Effect.send 2 (Message.raw relayedPayload)]
    ∧ ∀ u2 d2 : String,
        Effect.validateCall u2 d2
          ∉ websocket_on_message [("u1", [1, 2])] "u1" 1 relayedPayload
              (fun _ => false) := by
  have h : websocket_on_message [("u1", [1, 2])] "u1" 1 relayedPayload
      (fun _ => false) = [Effect.send 2 (Message.raw relayedPayload)] := by
    decide
  refine ⟨h, ?_⟩
  intro u2 d2
  rw [h]
  simp
